import Mathlib

/-!
Shallow embedding of RF24 `examples_pico/scanner.cpp`

The program keeps three global arrays (`values`, `addresses`, `current_address`) and talks to
two external collaborators: the radio driver object `radio` and the console.  The embedding
threads the globals through a `State` record.  Every call made on the radio or the console is
appended to `State.trace`, in program order; the answers of the radio are inputs of the model.

Bytes (`uint8_t`) are natural numbers, with `% 256` written wherever the source increments one.
Characters of the source are written as their ASCII codes: `'0'` is 48 and `'Z'` is 90.
-/

namespace Scanner

/-! ## External collaborators -/

/-- Modelled from the spec: the data-rate enumeration of the radio driver ("one of three
discrete values"); its declaration lives in the driver headers, not in `scanner.cpp`. -/
inductive rf24_datarate_e where
  | RF24_1MBPS
  | RF24_2MBPS
  | RF24_250KBPS
  deriving DecidableEq, Repr

/-- One call on the radio driver or on the console. -/
inductive Event where
  | setChannel (channel : Nat)
  | startListening
  | stopListening
  | sleep_us (us : Nat)
  | testRPD
  | available
  | available_pipe
  | read_register (reg : Nat)
  | read (len : Nat)
  | flush_rx
  | closeReadingPipe (pipe : Nat)
  | openReadingPipe (pipe : Nat) (address : Nat × Nat)
  | setAutoAck (enable : Bool)
  | disableCRC
  | setAddressWidth (width : Nat)
  | setDataRate (rate : rf24_datarate_e)
  | getchar
  | printf (text : List Char)
  deriving DecidableEq, Repr

/-- Whether an event is console output. -/
def Event.isPrintf : Event → Bool
  | .printf _ => true
  | _ => false

/-- Whether an event takes a frame out of the radio (`radio.read`). -/
def Event.isRead : Event → Bool
  | .read _ => true
  | _ => false

/-! ## Global state -/

/-- The globals of `scanner.cpp` together with the trace of external calls.
`addresses[i]` and `current_address` are two-byte arrays, held as pairs `(byte 0, byte 1)`. -/
structure State where
  values : List Nat
  addresses : List (Nat × Nat)
  current_address : Nat × Nat
  trace : List Event
  deriving DecidableEq, Repr

/-- `const uint8_t num_channels = 126`. -/
def num_channels : Nat := 126

/-- Globals at program start: objects of static storage duration are zero-initialised. -/
def programStart : State :=
  { values := List.replicate num_channels 0
    addresses := List.replicate 6 (0, 0)
    current_address := (0, 0)
    trace := [] }

/-- Append one external call to the trace. -/
def State.log (s : State) (e : Event) : State :=
  { s with trace := s.trace ++ [e] }

/-- A byte of an address lies in `['0','Z']`. -/
def inRange (b : Nat) : Prop := 48 ≤ b ∧ b ≤ 90

instance (b : Nat) : Decidable (inRange b) := by
  unfold inRange; infer_instance

/-- Both bytes of a two-byte address lie in `['0','Z']`. -/
def validAddress (a : Nat × Nat) : Prop := inRange a.1 ∧ inRange a.2

instance (a : Nat × Nat) : Decidable (validAddress a) := by
  unfold validAddress; infer_instance

/-! ## Address cycler (`scanner.cpp` lines 139-176) -/

/-- `bool IncrementAddress()`. -/
def IncrementAddress (s : State) : Bool × State :=
  -- current_address[1]++;
  let s := { s with current_address := (s.current_address.1, (s.current_address.2 + 1) % 256) }
  -- if (current_address[1] > 'Z')
  if s.current_address.2 > 90 then
    -- current_address[1] = '0';
    let s := { s with current_address := (s.current_address.1, 48) }
    -- current_address[0]++;
    let s := { s with current_address := ((s.current_address.1 + 1) % 256, s.current_address.2) }
    -- if (current_address[0] > 'Z')
    if s.current_address.1 > 90 then
      -- current_address[0] = '0'; return true;
      (true, { s with current_address := (48, s.current_address.2) })
    else
      (false, s)
  else
    (false, s)

/-- Body of the `for` loop of `SetNextAddress`, for pipe `i`; the accumulator carries the local
`reached_last_address`. -/
def SetNextAddress_body (acc : Bool × State) (i : Nat) : Bool × State :=
  let reached_last_address := acc.1
  let s := acc.2
  let r :=
    if reached_last_address then
      -- IncrementAddress();            (return value dropped)
      (reached_last_address, (IncrementAddress s).2)
    else
      -- reached_last_address = IncrementAddress();
      IncrementAddress s
  let reached_last_address := r.1
  let s := r.2
  -- addresses[i][0] = current_address[0]; addresses[i][1] = current_address[1];
  let s := { s with addresses := s.addresses.set i (s.current_address.1, s.current_address.2) }
  -- radio.closeReadingPipe(i);
  let s := s.log (Event.closeReadingPipe i)
  -- radio.openReadingPipe(i, addresses[i]);
  let s := s.log (Event.openReadingPipe i (s.addresses.getD i (0, 0)))
  (reached_last_address, s)

/-- `bool SetNextAddress()`: `for (uint8_t i = 0; i < 6; ++i)`. -/
def SetNextAddress (s : State) : Bool × State :=
  (List.range 6).foldl SetNextAddress_body (false, s)

/-- The state after `k` successive `IncrementAddress()` calls. -/
def IncrementAddress_times : Nat → State → State
  | 0, s => s
  | k + 1, s => IncrementAddress_times k (IncrementAddress s).2

/-- The value returned by call number `k` (counted from 0) of a run of successive
`IncrementAddress()` calls started in `s`. -/
def IncrementAddress_returns (k : Nat) (s : State) : Bool :=
  (IncrementAddress (IncrementAddress_times k s)).1

/-! ## Loops and `printf` -/

/-- A C `for (init; cond; step) body` loop after its `init`: `cond` is evaluated (it may have a
side effect on the loop state), and while it holds `body` then `step` run.  `none` means the
fuel ran out before the condition turned false. -/
def forLoop {σ : Type} (cond : σ → Bool × σ) (body step : σ → σ) : Nat → σ → Option σ
  | 0, _ => none
  | fuel + 1, st =>
    if (cond st).1 then forLoop cond body step fuel (step (body (cond st).2))
    else some (cond st).2

/-- Conversion `%d` of `printf`, for a non-negative argument. -/
def fmt_d (n : Nat) : List Char := Nat.toDigits 10 n

/-- Conversion `%x` of `printf`: lowercase hexadecimal, no padding. -/
def fmt_x (n : Nat) : List Char := Nat.toDigits 16 n

/-- Conversion `%c` of `printf` for a byte. -/
def fmt_c (b : Nat) : List Char := [Char.ofNat b]

/-- Right-justify in a field of width 2, padding with blanks (`%2c`, `%2x`). -/
def pad2 (t : List Char) : List Char := List.replicate (2 - t.length) ' ' ++ t

/-- Modelled from the spec: the macro `rf24_min(a, b)` of the radio driver headers, the smaller
of its two arguments ("clamped to 0xF"); its definition `(a < b ? a : b)` is not in
`scanner.cpp`. -/
def rf24_min (a b : Nat) : Nat := if a < b then a else b

/-- All console output of a trace, concatenated in order. -/
def console : List Event → List Char
  | [] => []
  | Event.printf text :: rest => text ++ console rest
  | _ :: rest => console rest

/-! ## Radio initialiser (`scanner.cpp` lines 178-219) -/

/-- Condition of the first loop of `initRadio`, `for (int i = 0; i++; i < 6)`: the condition
is `i++`, whose value is that of `i` before the increment. -/
def initRadio_cond (st : Int × State) : Bool × (Int × State) :=
  (decide (st.1 ≠ 0), (st.1 + 1, st.2))

/-- Body of the first loop of `initRadio`. -/
def initRadio_body (st : Int × State) : Int × State :=
  let i := st.1
  let s := st.2
  -- addresses[i][0] = current_address[0]; addresses[i][1] = current_address[1];
  let s := { s with
    addresses := s.addresses.set i.toNat (s.current_address.1, s.current_address.2) }
  -- IncrementAddress();
  (i, (IncrementAddress s).2)

/-- Third clause of the first loop of `initRadio`: `i < 6`, evaluated for nothing. -/
def initRadio_step (st : Int × State) : Int × State := st

/-- `void initRadio()`; `input` is the character that `getchar()` returns. -/
def initRadio (fuel : Nat) (input : Nat) (s : State) : Option State :=
  -- current_address[0] = '0'; current_address[1] = '0';
  let s := { s with current_address := (48, s.current_address.2) }
  let s := { s with current_address := (s.current_address.1, 48) }
  -- for (int i = 0; i++; i < 6) { ... }
  match forLoop initRadio_cond initRadio_body initRadio_step fuel (0, s) with
  | none => none
  | some st =>
    let s := st.2
    let s := s.log (Event.setAutoAck false)
    let s := s.log Event.disableCRC
    let s := s.log (Event.setAddressWidth 2)
    -- for (uint8_t i = 0; i < 6; ++i) radio.openReadingPipe(i, addresses[i]);
    let s := (List.range 6).foldl
      (fun s i => s.log (Event.openReadingPipe i (s.addresses.getD i (0, 0)))) s
    let s := s.log (Event.printf "\nSelect your data rate. ".toList)
    let s := s.log (Event.printf
      "Enter '1' for 1 Mbps, '2' for 2 Mbps, or '3' for 250 kbps. ".toList)
    let s := s.log (Event.printf "Defaults to 1 Mbps.\n".toList)
    let s := s.log Event.getchar
    let s :=
      if input = 50 then
        (s.log (Event.printf "\nUsing 2 Mbps.\n".toList)).log
          (Event.setDataRate rf24_datarate_e.RF24_2MBPS)
      else if input = 51 then
        (s.log (Event.printf "\nUsing 250 kbps.\n".toList)).log
          (Event.setDataRate rf24_datarate_e.RF24_250KBPS)
      else
        (s.log (Event.printf "\nUsing 1 Mbps.\n".toList)).log
          (Event.setDataRate rf24_datarate_e.RF24_1MBPS)
    let s := s.log Event.startListening
    let s := s.log Event.stopListening
    some (s.log Event.flush_rx)

/-! ## Channel scanner (`scanner.cpp` lines 221-276) -/

/-- `bool IsAscii(uint8_t character)`. -/
def IsAscii (character : Nat) : Bool :=
  if character ≥ 48 ∧ character ≤ 90 then true else false

/-- Conversion of a C++ `bool` to the `uint8_t` parameter of `IsAscii`. -/
def boolToByte (b : Bool) : Nat := if b then 1 else 0

/-- One received frame, as the radio hands it over: the pipe number that
`radio.available(&pipe_num)` stores, the value that `radio.read_register(0x11 + pipe_num)`
returns, and the 32 bytes of `rx_buff` once `radio.read` is back. -/
structure Frame where
  pipe_num : Nat
  nbytes : Nat
  rx_buff : List Nat
  deriving DecidableEq, Repr

/-- Answers of the radio during one `scanChannel` call: the two samples of `testRPD()`, the
answer of `available()`, and the frames waiting in the receive queue (after the last of them
`available(&pipe_num)` answers false). -/
structure RadioAnswers where
  rpd1 : Bool
  rpd2 : Bool
  avail : Bool
  frames : List Frame
  deriving DecidableEq, Repr

/-- Rendering of byte `i` of the buffer in the diagnostic line (lines 259-267). -/
def scanChannel_printByte (rx_buff : List Nat) (s : State) (i : Nat) : State :=
  if rx_buff.getD i 0 ≥ 48 ∧ rx_buff.getD i 0 ≤ 90 then
    s.log (Event.printf (pad2 (fmt_c (rx_buff.getD i 0)) ++ " ".toList))
  else
    s.log (Event.printf (pad2 (fmt_x (rx_buff.getD i 0)) ++ " ".toList))

/-- One turn of `while (radio.available(&pipe_num))` in `scanChannel`, for the frame `f`. -/
def scanChannel_drain (channel : Nat) (s : State) (f : Frame) : State :=
  let s := s.log Event.available_pipe
  -- int nbytes = radio.read_register(0x11+pipe_num);
  let s := s.log (Event.read_register (0x11 + f.pipe_num))
  -- radio.read(rx_buff, nbytes);
  let s := s.log (Event.read f.nbytes)
  -- if (IsAscii(rx_buff[0] && IsAscii(rx_buff[0])))
  if IsAscii (boolToByte (decide (f.rx_buff.getD 0 0 ≠ 0) && IsAscii (f.rx_buff.getD 0 0))) then
    let s := s.log (Event.printf
      ("Channel ".toList ++ fmt_d channel ++ ", Pipe ".toList ++ fmt_d f.pipe_num
        ++ ", ".toList ++ fmt_d f.nbytes ++ " bytes, Address ".toList
        ++ fmt_c (s.addresses.getD f.pipe_num (0, 0)).1 ++ " ".toList
        ++ fmt_c (s.addresses.getD f.pipe_num (0, 0)).2 ++ "  Data: ".toList))
    -- for (int i = 0; i < sizeof(rx_buff); i++)
    let s := (List.range 32).foldl (scanChannel_printByte f.rx_buff) s
    s.log (Event.printf "\n\r".toList)
  else
    s

/-- `void scanChannel(uint8_t channel)`. -/
def scanChannel (channel : Nat) (radio : RadioAnswers) (s : State) : State :=
  let s := s.log (Event.setChannel channel)
  let s := s.log Event.startListening
  let s := s.log (Event.sleep_us 500000)
  -- bool foundSignal = radio.testRPD();
  let s := s.log Event.testRPD
  let foundSignal := radio.rpd1
  let s := s.log Event.stopListening
  -- foundSignal || radio.testRPD() || radio.available(), evaluated left to right
  let c : Bool × State :=
    if foundSignal then (true, s)
    else if radio.rpd2 then (true, s.log Event.testRPD)
    else (radio.avail, (s.log Event.testRPD).log Event.available)
  if c.1 then
    let s := radio.frames.foldl (scanChannel_drain channel) c.2
    -- the call of available(&pipe_num) that answers false
    let s := s.log Event.available_pipe
    -- ++values[channel];
    let s := { s with values := s.values.set channel ((s.values.getD channel 0 + 1) % 256) }
    s.log Event.flush_rx
  else
    c.2

/-! ## Report printer (`scanner.cpp` lines 116-124 and 278-299) -/

/-- `void printHeader()`. -/
def printHeader (s : State) : State :=
  let s := (List.range num_channels).foldl (fun s i => s.log (Event.printf (fmt_d (i / 100)))) s
  let s := s.log (Event.printf "\n".toList)
  let s := (List.range num_channels).foldl
    (fun s i => s.log (Event.printf (fmt_d ((i % 100) / 10)))) s
  let s := s.log (Event.printf "\n".toList)
  let s := (List.range num_channels).foldl (fun s i => s.log (Event.printf (fmt_d (i % 10)))) s
  let s := s.log (Event.printf "\n".toList)
  let s := (List.range num_channels).foldl (fun s _ => s.log (Event.printf "~".toList)) s
  s.log (Event.printf "\n".toList)

/-- The per-sweep row printer of `main` (lines 116-124). -/
def main_printRow (s : State) : State :=
  let s := (List.range num_channels).foldl
    (fun s i =>
      if s.values.getD i 0 ≠ 0 then
        s.log (Event.printf (fmt_x (rf24_min 0xf (s.values.getD i 0))))
      else
        s.log (Event.printf "-".toList)) s
  let s := s.log (Event.printf "\r\n".toList)
  s.log (Event.printf "\n".toList)

/-! ## Per-channel address loop of `main` (`scanner.cpp` lines 108-113) -/

/-- The loop `while (!last_address_reached) { last_address_reached = SetNextAddress();
scanChannel(i); }`.  `radio k` holds the answers of the radio during the `k`-th `scanChannel`
call.  The result is the number of turns made together with the final state; `none` means
the fuel ran out before `SetNextAddress` returned true. -/
def main_addressLoop (i : Nat) : Nat → (Nat → RadioAnswers) → State → Option (Nat × State)
  | 0, _, _ => none
  | fuel + 1, radio, s =>
    let r := SetNextAddress s
    let s := scanChannel i (radio 0) r.2
    if r.1 then some (1, s)
    else
      match main_addressLoop i fuel (fun k => radio (k + 1)) s with
      | none => none
      | some (n, t) => some (n + 1, t)

/-- The state after `k` complete turns of the loop of `main_addressLoop`, whatever
`SetNextAddress` returned: each turn is one `SetNextAddress()` call followed by one
`scanChannel(i)` call, turn `j` (counted from 0) being answered by `radio j`. -/
def main_addressLoop_state (i : Nat) : Nat → (Nat → RadioAnswers) → State → State
  | 0, _, s => s
  | k + 1, radio, s =>
    main_addressLoop_state i k (fun j => radio (j + 1))
      (scanChannel i (radio 0) (SetNextAddress s).2)

/-! ## Proof helpers for the address cycler -/

/-- Cursor after one increment, as a function of the cursor alone. -/
def nextCursor (c : Nat × Nat) : Nat × Nat :=
  if (c.2 + 1) % 256 > 90 then
    if (c.1 + 1) % 256 > 90 then (48, 48) else ((c.1 + 1) % 256, 48)
  else (c.1, (c.2 + 1) % 256)

/-- Whether one increment reports the full wraparound, as a function of the cursor alone. -/
def wraps (c : Nat × Nat) : Bool :=
  decide ((c.2 + 1) % 256 > 90) && decide ((c.1 + 1) % 256 > 90)

/-- Position of a cursor in the cycle "00", "01", ..., "ZZ": each byte ranges over the 43
codes from 48 to 90. -/
def rank (c : Nat × Nat) : Nat := 43 * (c.1 - 48) + (c.2 - 48)

/-- Number of `SetNextAddress` calls until one returns true, from a cursor of rank `r`. -/
def callsToWrap (r : Nat) : Nat := (1849 - r + 5) / 6

/-- The radio calls of the drain loop of `scanChannel`, for the frames of the queue. -/
def drainEvents : List Frame → List Event
  | [] => []
  | f :: rest =>
    Event.available_pipe :: Event.read_register (0x11 + f.pipe_num) :: Event.read f.nbytes
      :: drainEvents rest

/-- The radio calls that `scanChannel` makes before its `if` decides. -/
def probeEvents (channel : Nat) (radio : RadioAnswers) : List Event :=
  [Event.setChannel channel, Event.startListening, Event.sleep_us 500000, Event.testRPD,
    Event.stopListening]
    ++ (if radio.rpd1 then [] else if radio.rpd2 then [Event.testRPD]
        else [Event.testRPD, Event.available])

theorem IncrementAddress_eq (s : State) :
    IncrementAddress s = (wraps s.current_address,
      { s with current_address := nextCursor s.current_address }) := by
  unfold IncrementAddress wraps nextCursor
  by_cases h1 : (s.current_address.2 + 1) % 256 > 90 <;>
    by_cases h2 : (s.current_address.1 + 1) % 256 > 90 <;> simp [h1, h2]

/-- **C1.** For a cursor `(high, low)` with both bytes in `['0','Z']`, one `IncrementAddress`
call gives `(high, low+1)` and `false` when `low < 'Z'`; `(high+1, '0')` and `false` when
`low = 'Z'` and `high < 'Z'`; `('0','0')` and `true` when `high = low = 'Z'`.  In particular
"00" becomes "01", "0Z" becomes "10" with `false`, and "ZZ" becomes "00" with `true`. -/
theorem C1_IncrementAddress_contract (s : State) (high low : Nat)
    (hc : s.current_address = (high, low)) (hh : inRange high) (hl : inRange low) :
    (low < 90 → IncrementAddress s = (false, { s with current_address := (high, low + 1) })) ∧
    (low = 90 → high < 90 →
      IncrementAddress s = (false, { s with current_address := (high + 1, 48) })) ∧
    (low = 90 → high = 90 →
      IncrementAddress s = (true, { s with current_address := (48, 48) })) ∧
    IncrementAddress { s with current_address := (48, 48) }
      = (false, { s with current_address := (48, 49) }) ∧
    IncrementAddress { s with current_address := (48, 90) }
      = (false, { s with current_address := (49, 48) }) ∧
    IncrementAddress { s with current_address := (90, 90) }
      = (true, { s with current_address := (48, 48) }) := by
  obtain ⟨hh1, hh2⟩ := hh
  obtain ⟨hl1, hl2⟩ := hl
  refine ⟨?_, ?_, ?_, ?_, ?_, ?_⟩
  · intro h
    have e1 : (low + 1) % 256 = low + 1 := Nat.mod_eq_of_lt (by omega)
    have e2 : ¬ (low + 1 > 90) := by omega
    simp [IncrementAddress_eq, wraps, nextCursor, hc, e1, e2]
  · intro h h'
    subst h
    have e1 : (high + 1) % 256 = high + 1 := Nat.mod_eq_of_lt (by omega)
    have e2 : ¬ (high + 1 > 90) := by omega
    simp [IncrementAddress_eq, wraps, nextCursor, hc, e1, e2]
  · intro h h'
    subst h; subst h'
    simp [IncrementAddress_eq, wraps, nextCursor, hc]
  · simp [IncrementAddress_eq, wraps, nextCursor]
  · simp [IncrementAddress_eq, wraps, nextCursor]
  · simp [IncrementAddress_eq, wraps, nextCursor]

theorem C1_IncrementAddress_contract_witness :
    inRange 48 ∧ inRange 90 ∧
    IncrementAddress { programStart with current_address := (48, 90) }
      = (false, { programStart with current_address := (49, 48) }) :=
  ⟨by decide, by decide,
    (C1_IncrementAddress_contract { programStart with current_address := (48, 90) } 48 90
      rfl (by decide) (by decide)).2.1 rfl (by decide)⟩

theorem IncrementAddress_times_eq (k : Nat) (s : State) :
    IncrementAddress_times k s
      = { s with current_address := nextCursor^[k] s.current_address } := by
  induction k generalizing s with
  | zero => rfl
  | succ k ih => simp [IncrementAddress_times, ih, IncrementAddress_eq]

theorem IncrementAddress_returns_eq (k : Nat) (s : State) :
    IncrementAddress_returns k s = wraps (nextCursor^[k] s.current_address) := by
  simp [IncrementAddress_returns, IncrementAddress_times_eq, IncrementAddress_eq]

theorem SetNextAddress_body_eq (r : Bool) (s : State) (i : Nat) :
    SetNextAddress_body (r, s) i = (r || wraps s.current_address,
      { s with
        current_address := nextCursor s.current_address
        addresses := s.addresses.set i (nextCursor s.current_address)
        trace := s.trace ++ [Event.closeReadingPipe i,
          Event.openReadingPipe i
            ((s.addresses.set i (nextCursor s.current_address)).getD i (0, 0))] }) := by
  cases r <;> simp [SetNextAddress_body, IncrementAddress_eq, State.log]

theorem exists_lt_six (p : Nat → Prop) :
    (∃ k, k < 6 ∧ p k) ↔ (p 0 ∨ p 1 ∨ p 2 ∨ p 3 ∨ p 4 ∨ p 5) := by
  constructor
  · rintro ⟨k, hk, h⟩
    interval_cases k <;> simp [h]
  · rintro (h | h | h | h | h | h)
    exacts [⟨0, by omega, h⟩, ⟨1, by omega, h⟩, ⟨2, by omega, h⟩, ⟨3, by omega, h⟩,
      ⟨4, by omega, h⟩, ⟨5, by omega, h⟩]

theorem range_six : List.range 6 = [0, 1, 2, 3, 4, 5] := by decide

/-- **C2.** One `SetNextAddress` call performs exactly six `IncrementAddress` steps: entry `i`
of the address table holds the cursor reached after step `i+1`, the cursor is left at the value
reached after the sixth step, and the call returns true if and only if at least one of the six
steps returned true (a later step is still made after a wrapping one, its return value being
dropped). -/
theorem C2_SetNextAddress_contract (s : State) (hlen : s.addresses.length = 6) :
    (SetNextAddress s).2.addresses
      = [(IncrementAddress_times 1 s).current_address,
         (IncrementAddress_times 2 s).current_address,
         (IncrementAddress_times 3 s).current_address,
         (IncrementAddress_times 4 s).current_address,
         (IncrementAddress_times 5 s).current_address,
         (IncrementAddress_times 6 s).current_address] ∧
    (SetNextAddress s).2.current_address = (IncrementAddress_times 6 s).current_address ∧
    ((SetNextAddress s).1 = true ↔ ∃ k, k < 6 ∧ IncrementAddress_returns k s = true) ∧
    (SetNextAddress s).2.values = s.values := by
  obtain ⟨vals, addrs, cur, tr⟩ := s
  simp only at hlen
  match addrs, hlen with
  | [a0, a1, a2, a3, a4, a5], _ =>
    refine ⟨?_, ?_, ?_, ?_⟩
    · simp [SetNextAddress, range_six, SetNextAddress_body_eq, IncrementAddress_times_eq]
    · simp [SetNextAddress, range_six, SetNextAddress_body_eq, IncrementAddress_times_eq]
    · rw [exists_lt_six]
      simp [SetNextAddress, range_six, SetNextAddress_body_eq, IncrementAddress_returns_eq,
        or_assoc]
    · simp [SetNextAddress, range_six, SetNextAddress_body_eq]

theorem C2_SetNextAddress_contract_witness :
    programStart.addresses.length = 6 ∧
    (SetNextAddress programStart).2.current_address
      = (IncrementAddress_times 6 programStart).current_address :=
  ⟨by decide, (C2_SetNextAddress_contract programStart (by decide)).2.1⟩

theorem nextCursor_spec (c : Nat × Nat) (h : validAddress c) :
    validAddress (nextCursor c) ∧ rank (nextCursor c) = (rank c + 1) % 1849 ∧
    (wraps c = true ↔ rank c = 1848) ∧ (wraps c = true ↔ c = (90, 90)) := by
  obtain ⟨hi, lo⟩ := c
  obtain ⟨⟨h1, h2⟩, ⟨h3, h4⟩⟩ := h
  simp only at h1 h2 h3 h4
  by_cases e1 : lo = 90
  · by_cases e2 : hi = 90
    · subst e1; subst e2
      simp [nextCursor, wraps, rank, validAddress, inRange]
    · subst e1
      have a1 : (hi + 1) % 256 = hi + 1 := Nat.mod_eq_of_lt (by omega)
      have a2 : ¬ (90 < hi + 1) := by omega
      simp only [nextCursor, wraps, rank, validAddress, inRange, a1, a2, Prod.mk.injEq]
      simp
      omega
  · have a1 : (lo + 1) % 256 = lo + 1 := Nat.mod_eq_of_lt (by omega)
    have a2 : ¬ (90 < lo + 1) := by omega
    simp only [nextCursor, wraps, rank, validAddress, inRange, a1, a2, Prod.mk.injEq]
    simp
    omega

theorem rank_lt (c : Nat × Nat) (h : validAddress c) : rank c < 1849 := by
  obtain ⟨⟨h1, h2⟩, ⟨h3, h4⟩⟩ := h
  unfold rank
  omega

theorem nextCursor_iterate_spec (k : Nat) (c : Nat × Nat) (h : validAddress c) :
    validAddress (nextCursor^[k] c) ∧ rank (nextCursor^[k] c) = (rank c + k) % 1849 := by
  induction k with
  | zero => exact ⟨h, by simp [Nat.mod_eq_of_lt (rank_lt c h)]⟩
  | succ k ih =>
    rw [Function.iterate_succ_apply']
    obtain ⟨hv, hr⟩ := ih
    obtain ⟨hv', hr', -, -⟩ := nextCursor_spec _ hv
    refine ⟨hv', ?_⟩
    rw [hr', hr]
    omega

/-- **C9.** From a cursor with both bytes in `['0','Z']`, among 44*44 = 1936 successive
`IncrementAddress` calls at least one returns true, and each of those calls returns true exactly
when the cursor before it is "ZZ" (and false otherwise); such a call leaves the cursor at the
wrapped state "00". -/
theorem C9_IncrementAddress_cycle (s : State) (h : validAddress s.current_address) :
    (∃ k, k < 44 * 44 ∧ IncrementAddress_returns k s = true) ∧
    (∀ k, k < 44 * 44 → (IncrementAddress_returns k s = true ↔
      (IncrementAddress_times k s).current_address = (90, 90))) ∧
    (∀ k, k < 44 * 44 → IncrementAddress_returns k s = true →
      (IncrementAddress_times (k + 1) s).current_address = (48, 48)) := by
  refine ⟨?_, ?_, ?_⟩
  · refine ⟨1848 - rank s.current_address, by omega, ?_⟩
    rw [IncrementAddress_returns_eq]
    obtain ⟨hv, hr⟩ := nextCursor_iterate_spec (1848 - rank s.current_address) _ h
    rw [(nextCursor_spec _ hv).2.2.1, hr]
    have := rank_lt _ h
    omega
  · intro k _
    rw [IncrementAddress_returns_eq, IncrementAddress_times_eq]
    exact (nextCursor_spec _ (nextCursor_iterate_spec k _ h).1).2.2.2
  · intro k _ hk
    rw [IncrementAddress_returns_eq] at hk
    have hzz := (nextCursor_spec _ (nextCursor_iterate_spec k _ h).1).2.2.2.1 hk
    rw [IncrementAddress_times_eq]
    show nextCursor^[k + 1] s.current_address = (48, 48)
    rw [Function.iterate_succ_apply', hzz]
    decide

theorem C9_IncrementAddress_cycle_witness :
    validAddress (48, 48) ∧
    ∃ k, k < 44 * 44 ∧
      IncrementAddress_returns k { programStart with current_address := (48, 48) } = true :=
  ⟨by decide,
    (C9_IncrementAddress_cycle { programStart with current_address := (48, 48) }
      (by decide)).1⟩

theorem IsAscii_boolToByte (b : Bool) : IsAscii (boolToByte b) = false := by
  cases b <;> decide

theorem scanChannel_drain_eq (channel : Nat) (s : State) (f : Frame) :
    scanChannel_drain channel s f
      = { s with trace := s.trace ++ [Event.available_pipe,
          Event.read_register (0x11 + f.pipe_num), Event.read f.nbytes] } := by
  simp [scanChannel_drain, IsAscii_boolToByte, State.log]

theorem scanChannel_drain_foldl (channel : Nat) (frames : List Frame) (s : State) :
    frames.foldl (scanChannel_drain channel) s
      = { s with trace := s.trace ++ drainEvents frames } := by
  induction frames generalizing s with
  | nil => simp [drainEvents]
  | cons f rest ih => simp [List.foldl_cons, ih, scanChannel_drain_eq, drainEvents]

theorem scanChannel_eq (channel : Nat) (radio : RadioAnswers) (s : State) :
    scanChannel channel radio s =
      if radio.rpd1 || radio.rpd2 || radio.avail then
        { s with
          values := s.values.set channel ((s.values.getD channel 0 + 1) % 256)
          trace := s.trace ++ probeEvents channel radio ++ drainEvents radio.frames
            ++ [Event.available_pipe, Event.flush_rx] }
      else
        { s with trace := s.trace ++ probeEvents channel radio } := by
  obtain ⟨r1, r2, av, frames⟩ := radio
  cases r1 <;> cases r2 <;> cases av <;>
    simp [scanChannel, scanChannel_drain_foldl, State.log, probeEvents]

theorem SetNextAddress_cursor (s : State) :
    (SetNextAddress s).2.current_address = nextCursor^[6] s.current_address ∧
    ((SetNextAddress s).1 = true ↔
      ∃ k, k < 6 ∧ wraps (nextCursor^[k] s.current_address) = true) := by
  constructor
  · simp [SetNextAddress, range_six, SetNextAddress_body_eq]
  · rw [exists_lt_six]
    simp [SetNextAddress, range_six, SetNextAddress_body_eq, or_assoc]

theorem SetNextAddress_rank (s : State) (h : validAddress s.current_address) :
    validAddress (SetNextAddress s).2.current_address ∧
    rank (SetNextAddress s).2.current_address = (rank s.current_address + 6) % 1849 ∧
    ((SetNextAddress s).1 = true ↔ 1849 ≤ rank s.current_address + 6) := by
  obtain ⟨hc, hr⟩ := SetNextAddress_cursor s
  have hlt := rank_lt _ h
  refine ⟨?_, ?_, ?_⟩
  · rw [hc]; exact (nextCursor_iterate_spec 6 _ h).1
  · rw [hc]; exact (nextCursor_iterate_spec 6 _ h).2
  · rw [hr]
    constructor
    · rintro ⟨k, hk, hw⟩
      obtain ⟨hv, hrk⟩ := nextCursor_iterate_spec k _ h
      rw [(nextCursor_spec _ hv).2.2.1, hrk] at hw
      omega
    · intro hge
      refine ⟨1848 - rank s.current_address, by omega, ?_⟩
      obtain ⟨hv, hrk⟩ := nextCursor_iterate_spec (1848 - rank s.current_address) _ h
      rw [(nextCursor_spec _ hv).2.2.1, hrk]
      omega

theorem main_addressLoop_spec (i : Nat) :
    ∀ (m : Nat) (radio : Nat → RadioAnswers) (s : State),
      validAddress s.current_address → callsToWrap (rank s.current_address) ≤ m →
      validAddress
        (main_addressLoop_state i (callsToWrap (rank s.current_address)) radio s).current_address ∧
      rank (main_addressLoop_state i (callsToWrap (rank s.current_address)) radio
          s).current_address + 1849
        = rank s.current_address + 6 * callsToWrap (rank s.current_address) ∧
      (SetNextAddress
        (main_addressLoop_state i (callsToWrap (rank s.current_address) - 1) radio s)).1 = true ∧
      (∀ k, k < callsToWrap (rank s.current_address) - 1 →
        (SetNextAddress (main_addressLoop_state i k radio s)).1 = false) ∧
      ∀ fuel, main_addressLoop i fuel radio s =
        if callsToWrap (rank s.current_address) ≤ fuel
        then some (callsToWrap (rank s.current_address),
          main_addressLoop_state i (callsToWrap (rank s.current_address)) radio s)
        else none := by
  intro m
  induction m with
  | zero =>
    intro radio s h hm
    have := rank_lt _ h
    unfold callsToWrap at hm
    omega
  | succ m ih =>
    intro radio s h hm
    have hlt := rank_lt _ h
    obtain ⟨hv, hr, hw⟩ := SetNextAddress_rank s h
    have hcur : (scanChannel i (radio 0) (SetNextAddress s).2).current_address
        = (SetNextAddress s).2.current_address := by
      rw [scanChannel_eq]; split <;> rfl
    by_cases hge : 1849 ≤ rank s.current_address + 6
    · have hn : callsToWrap (rank s.current_address) = 1 := by
        unfold callsToWrap; omega
      rw [hn]
      refine ⟨?_, ?_, ?_, ?_, ?_⟩
      · show validAddress (scanChannel i (radio 0) (SetNextAddress s).2).current_address
        rw [hcur]; exact hv
      · show rank (scanChannel i (radio 0) (SetNextAddress s).2).current_address + 1849 = _
        rw [hcur, hr]; omega
      · exact hw.2 hge
      · intro k hk
        omega
      · intro fuel
        cases fuel with
        | zero => simp [main_addressLoop]
        | succ fuel => simp [main_addressLoop, main_addressLoop_state, hw.2 hge]
    · have hf : (SetNextAddress s).1 = false := by
        cases hb : (SetNextAddress s).1
        · rfl
        · exact absurd (hw.1 hb) hge
      have hr' : rank (scanChannel i (radio 0) (SetNextAddress s).2).current_address
          = rank s.current_address + 6 := by
        rw [hcur, hr]; omega
      have hn : callsToWrap (rank s.current_address)
          = callsToWrap (rank s.current_address + 6) + 1 := by
        unfold callsToWrap; omega
      have hpos : 1 ≤ callsToWrap (rank s.current_address + 6) := by
        unfold callsToWrap; omega
      obtain ⟨ht1, ht2, ht3, ht4, ht5⟩ := ih (fun k => radio (k + 1))
        (scanChannel i (radio 0) (SetNextAddress s).2) (by rw [hcur]; exact hv)
        (by rw [hr']; omega)
      rw [hr'] at ht1 ht2 ht3 ht4 ht5
      rw [hn]
      refine ⟨ht1, ?_, ?_, ?_, ?_⟩
      · show rank (main_addressLoop_state i (callsToWrap (rank s.current_address + 6))
          (fun k => radio (k + 1))
          (scanChannel i (radio 0) (SetNextAddress s).2)).current_address + 1849 = _
        omega
      · obtain ⟨j, hj⟩ : ∃ j, callsToWrap (rank s.current_address + 6) = j + 1 :=
          ⟨callsToWrap (rank s.current_address + 6) - 1, by omega⟩
        rw [hj] at ht3 ⊢
        exact ht3
      · intro k hk
        cases k with
        | zero => exact hf
        | succ j => exact ht4 j (by omega)
      · intro fuel
        cases fuel with
        | zero => simp [main_addressLoop]
        | succ fuel =>
          simp only [main_addressLoop, hf, ht5, main_addressLoop_state]
          by_cases hle : callsToWrap (rank s.current_address + 6) ≤ fuel <;> simp [hle]

theorem initRadio_loop_eq (fuel : Nat) (s : State) :
    forLoop initRadio_cond initRadio_body initRadio_step (fuel + 1) (0, s) = some (1, s) := by
  simp [forLoop, initRadio_cond]

theorem initRadio_eq (fuel : Nat) (input : Nat) (s : State) :
    ∃ t : State, initRadio (fuel + 1) input s = some t ∧
      t.current_address = (48, 48) ∧ t.addresses = s.addresses ∧ t.values = s.values ∧
      ∀ i, i < 6 → Event.openReadingPipe i (s.addresses.getD i (0, 0)) ∈ t.trace := by
  simp only [initRadio, initRadio_loop_eq, range_six, List.foldl_cons, List.foldl_nil,
    State.log]
  refine ⟨_, rfl, ?_, ?_, ?_, ?_⟩
  · split_ifs <;> rfl
  · split_ifs <;> rfl
  · split_ifs <;> rfl
  · intro i hi
    interval_cases i <;> split_ifs <;> simp

/-- **C10.** The per-channel address loop of `main` terminates from every cursor with both
bytes in `['0','Z']`: there is a number `n` of turns, at least 1 and at most 309, such that the
`SetNextAddress` call of turn `n` returns true, the calls of all earlier turns return false, and
the loop returns after exactly `n` turns (with any fuel of at least `n`).  `initRadio` returns
with the cursor at "00", and from that cursor the first true comes from exactly the 309th call,
which leaves the cursor at "05". -/
theorem C10_addressLoop_terminates (i : Nat) (radio : Nat → RadioAnswers) (s : State)
    (h : validAddress s.current_address) :
    (∃ n : Nat, 1 ≤ n ∧ n ≤ 309 ∧
      (SetNextAddress (main_addressLoop_state i (n - 1) radio s)).1 = true ∧
      (∀ k, k < n - 1 → (SetNextAddress (main_addressLoop_state i k radio s)).1 = false) ∧
      (∀ fuel, main_addressLoop i fuel radio s
        = if n ≤ fuel then some (n, main_addressLoop_state i n radio s) else none) ∧
      (s.current_address = (48, 48) →
        n = 309 ∧ (main_addressLoop_state i n radio s).current_address = (48, 53))) ∧
    (∀ (fuel input : Nat) (s0 : State), ∃ t0 : State,
      initRadio (fuel + 1) input s0 = some t0 ∧ t0.current_address = (48, 48) ∧
      (SetNextAddress (main_addressLoop_state i 308 radio t0)).1 = true ∧
      (∀ k, k < 308 → (SetNextAddress (main_addressLoop_state i k radio t0)).1 = false) ∧
      (∀ fuel2, main_addressLoop i fuel2 radio t0
        = if 309 ≤ fuel2 then some (309, main_addressLoop_state i 309 radio t0) else none) ∧
      (main_addressLoop_state i 309 radio t0).current_address = (48, 53)) := by
  have h0 : rank (48, 48) = 0 := by decide
  have hn : callsToWrap 0 = 309 := by decide
  have hzero : ∀ t : State, t.current_address = (48, 48) →
      (SetNextAddress (main_addressLoop_state i 308 radio t)).1 = true ∧
      (∀ k, k < 308 → (SetNextAddress (main_addressLoop_state i k radio t)).1 = false) ∧
      (∀ fuel2, main_addressLoop i fuel2 radio t
        = if 309 ≤ fuel2 then some (309, main_addressLoop_state i 309 radio t) else none) ∧
      (main_addressLoop_state i 309 radio t).current_address = (48, 53) := by
    intro t ht
    have hv : validAddress t.current_address := by rw [ht]; decide
    obtain ⟨g1, g2, g3, g4, g5⟩ := main_addressLoop_spec i _ radio t hv (le_refl _)
    rw [ht, h0, hn] at g1 g2 g3 g4 g5
    refine ⟨g3, g4, g5, ?_⟩
    obtain ⟨⟨b1, b2⟩, ⟨b3, b4⟩⟩ := g1
    unfold rank at g2
    have e1 : (main_addressLoop_state i 309 radio t).current_address.1 = 48 := by omega
    have e2 : (main_addressLoop_state i 309 radio t).current_address.2 = 53 := by omega
    exact Prod.ext e1 e2
  constructor
  · obtain ⟨-, -, ht3, ht4, ht5⟩ := main_addressLoop_spec i _ radio s h (le_refl _)
    have hlt := rank_lt _ h
    refine ⟨callsToWrap (rank s.current_address), ?_, ?_, ht3, ht4, ht5, ?_⟩
    · unfold callsToWrap; omega
    · unfold callsToWrap; omega
    · intro hs
      rw [hs, h0, hn]
      exact ⟨rfl, (hzero s hs).2.2.2⟩
  · intro fuel input s0
    obtain ⟨t0, ht0, hc, -⟩ := initRadio_eq fuel input s0
    exact ⟨t0, ht0, hc, hzero t0 hc⟩

theorem C10_addressLoop_terminates_witness :
    validAddress (90, 90) ∧
    ∃ n : Nat, 1 ≤ n ∧ n ≤ 309 ∧
      (SetNextAddress (main_addressLoop_state 0 (n - 1) (fun _ => ⟨false, false, false, []⟩)
        { programStart with current_address := (90, 90) })).1 = true ∧
      (∀ fuel, main_addressLoop 0 fuel (fun _ => ⟨false, false, false, []⟩)
        { programStart with current_address := (90, 90) }
          = if n ≤ fuel then some (n, main_addressLoop_state 0 n
              (fun _ => ⟨false, false, false, []⟩)
              { programStart with current_address := (90, 90) }) else none) := by
  refine ⟨by decide, ?_⟩
  obtain ⟨n, h1, h2, h3, -, h5, -⟩ :=
    (C10_addressLoop_terminates 0 (fun _ => ⟨false, false, false, []⟩)
      { programStart with current_address := (90, 90) } (by decide)).1
  exact ⟨n, h1, h2, h3, h5⟩

theorem console_append (a b : List Event) : console (a ++ b) = console a ++ console b := by
  induction a with
  | nil => rfl
  | cons e rest ih => cases e <;> simp [console, ih]

theorem console_drainEvents (frames : List Frame) : console (drainEvents frames) = [] := by
  induction frames with
  | nil => rfl
  | cons f rest ih => simp [drainEvents, console, ih]

theorem console_probeEvents (channel : Nat) (radio : RadioAnswers) :
    console (probeEvents channel radio) = [] := by
  unfold probeEvents
  split_ifs <;> rfl

theorem console_drain_end : console [Event.available_pipe, Event.flush_rx] = [] := rfl

/-- **C3 (amended).** For every channel `c` in 0..125 and every prior value below 255 of the
8-bit counter `values[c]`, a `scanChannel(c)` call in which carrier-detect is true leaves
`values[c]` equal to its prior value plus exactly 1, whatever frames are drained. -/
theorem C3_scanChannel_counts_once (c : Nat) (radio : RadioAnswers) (s : State)
    (hc : c < num_channels) (hlen : s.values.length = num_channels)
    (hprior : s.values.getD c 0 < 255)
    (hcarrier : radio.rpd1 = true ∨ radio.rpd2 = true) :
    (scanChannel c radio s).values.getD c 0 = s.values.getD c 0 + 1 := by
  have hcond : (radio.rpd1 || radio.rpd2 || radio.avail) = true := by
    rcases hcarrier with h | h <;> simp [h]
  have hlt : c < s.values.length := by omega
  rw [scanChannel_eq, if_pos hcond]
  have hset : ∀ x : Nat, (s.values.set c x).getD c 0 = x := by
    intro x
    simp [List.getD_eq_getElem?_getD, List.getElem?_set_self hlt]
  show (s.values.set c ((s.values.getD c 0 + 1) % 256)).getD c 0 = s.values.getD c 0 + 1
  rw [hset]
  omega

theorem C3_scanChannel_counts_once_witness :
    (0 : Nat) < num_channels ∧ programStart.values.length = num_channels ∧
    programStart.values.getD 0 0 < 255 ∧
    (scanChannel 0 ⟨true, false, false, []⟩ programStart).values.getD 0 0
      = programStart.values.getD 0 0 + 1 :=
  ⟨by decide, List.length_replicate _ _, by decide,
    C3_scanChannel_counts_once 0 ⟨true, false, false, []⟩ programStart
      (by decide) (List.length_replicate _ _) (by decide) (Or.inl rfl)⟩

/-- **C3, as stated, fails.** With the 8-bit counter of channel 0 at 255 and carrier-detect
true, `scanChannel(0)` leaves the counter at 0, not at the prior value plus 1. -/
theorem C3_counterexample :
    ({ programStart with values := 255 :: List.replicate 125 0 } : State).values.length
      = num_channels ∧
    ({ programStart with values := 255 :: List.replicate 125 0 } : State).values.getD 0 0
      = 255 ∧
    (scanChannel 0 ⟨true, false, false, []⟩
      { programStart with values := 255 :: List.replicate 125 0 }).values.getD 0 0 = 0 ∧
    (scanChannel 0 ⟨true, false, false, []⟩
      { programStart with values := 255 :: List.replicate 125 0 }).values.getD 0 0
      ≠ ({ programStart with values := 255 :: List.replicate 125 0 } : State).values.getD 0 0
        + 1 := by
  refine ⟨?_, by decide, ?_, ?_⟩
  · show (255 :: List.replicate 125 0).length = 126
    rw [List.length_cons, List.length_replicate]
  · rw [scanChannel_eq]
    decide
  · rw [scanChannel_eq]
    decide

/-- **C4.** A `scanChannel(c)` call in which both carrier-detect samples and data-available are
false leaves every counter unchanged and makes no frame read, no diagnostic print and no
receive-queue flush: its only external calls are the seven listed. -/
theorem C4_scanChannel_quiet (c : Nat) (radio : RadioAnswers) (s : State)
    (h1 : radio.rpd1 = false) (h2 : radio.rpd2 = false) (h3 : radio.avail = false) :
    (scanChannel c radio s).values = s.values ∧
    (scanChannel c radio s).trace
      = s.trace ++ [Event.setChannel c, Event.startListening, Event.sleep_us 500000,
          Event.testRPD, Event.stopListening, Event.testRPD, Event.available] ∧
    (∀ e, e ∈ [Event.setChannel c, Event.startListening, Event.sleep_us 500000,
          Event.testRPD, Event.stopListening, Event.testRPD, Event.available] →
        e.isRead = false ∧ e.isPrintf = false ∧ e ≠ Event.flush_rx) ∧
    console (scanChannel c radio s).trace = console s.trace := by
  rw [scanChannel_eq]
  simp [h1, h2, h3, probeEvents, console_append, console, Event.isRead, Event.isPrintf]

theorem C4_scanChannel_quiet_witness :
    (scanChannel 7 ⟨false, false, false, []⟩ programStart).values = programStart.values :=
  (C4_scanChannel_quiet 7 ⟨false, false, false, []⟩ programStart rfl rfl rfl).1

/-- **C7, at the failing input.** The guard `IsAscii(rx_buff[0] && IsAscii(rx_buff[0]))` hands
`IsAscii` the truth value 0 or 1, never the byte: `scanChannel` prints nothing for any frame,
also for a frame whose first payload byte is `'A'` (65), which `IsAscii` accepts. -/
theorem C7_scanChannel_never_prints :
    IsAscii 65 = true ∧
    (scanChannel 0 ⟨true, false, false, [⟨0, 32, 65 :: List.replicate 31 0⟩]⟩ programStart).trace
      = [Event.setChannel 0, Event.startListening, Event.sleep_us 500000, Event.testRPD,
          Event.stopListening, Event.available_pipe, Event.read_register 17, Event.read 32,
          Event.available_pipe, Event.flush_rx] ∧
    ∀ (c : Nat) (radio : RadioAnswers) (s : State),
      console (scanChannel c radio s).trace = console s.trace := by
  refine ⟨by decide, ?_, ?_⟩
  · rw [scanChannel_eq]
    decide
  · intro c radio s
    rw [scanChannel_eq]
    cases hsig : (radio.rpd1 || radio.rpd2 || radio.avail)
    · simp only [Bool.false_eq_true, if_false, console_append, console_probeEvents,
        List.append_nil]
    · simp only [if_true, console_append, console_probeEvents, console_drainEvents,
        List.append_nil, console_drain_end]

theorem SetNextAddress_addresses_valid (s : State) (h : validAddress s.current_address)
    (hlen : s.addresses.length = 6) :
    ∀ a, a ∈ (SetNextAddress s).2.addresses → validAddress a := by
  obtain ⟨vals, addrs, cur, tr⟩ := s
  simp only at hlen h
  match addrs, hlen with
  | [a0, a1, a2, a3, a4, a5], _ =>
    have e : (SetNextAddress ⟨vals, [a0, a1, a2, a3, a4, a5], cur, tr⟩).2.addresses
        = [nextCursor^[1] cur, nextCursor^[2] cur, nextCursor^[3] cur, nextCursor^[4] cur,
           nextCursor^[5] cur, nextCursor^[6] cur] := by
      simp [SetNextAddress, range_six, SetNextAddress_body_eq]
    intro a ha
    rw [e] at ha
    have hk : ∃ k, a = nextCursor^[k] cur := by
      simp only [List.mem_cons, List.mem_singleton, List.not_mem_nil, or_false] at ha
      rcases ha with ha | ha | ha | ha | ha | ha
      exacts [⟨1, ha⟩, ⟨2, ha⟩, ⟨3, ha⟩, ⟨4, ha⟩, ⟨5, ha⟩, ⟨6, ha⟩]
    obtain ⟨k, hk⟩ := hk
    rw [hk]
    exact (nextCursor_iterate_spec k cur h).1

/-- **C8, at the failing input.** The first loop of `initRadio` is written
`for (int i = 0; i++; i < 6)`: its condition `i++` is 0 at once and the body never runs.  Right
after `initRadio` (no `SetNextAddress` call yet) the cursor is "00", but the six entries of the
address table still hold the zero bytes of program start, which lie outside `['0','Z']`, and
the six pipes are opened with them. -/
theorem C8_initRadio_leaves_zero_addresses (fuel input : Nat) :
    ∃ t : State, initRadio (fuel + 1) input programStart = some t ∧
      t.current_address = (48, 48) ∧
      t.addresses = List.replicate 6 (0, 0) ∧
      (∀ i, i < 6 → Event.openReadingPipe i (0, 0) ∈ t.trace) ∧
      (∀ a, a ∈ t.addresses → ¬ validAddress a) := by
  obtain ⟨t, ht, hc, ha, -, hp⟩ := initRadio_eq fuel input programStart
  refine ⟨t, ht, hc, ha, ?_, ?_⟩
  · intro i hi
    have := hp i hi
    interval_cases i <;> exact this
  · intro a hmem
    rw [ha] at hmem
    have : a = (0, 0) := by
      simp only [programStart] at hmem
      exact List.eq_of_mem_replicate hmem
    rw [this]
    decide

theorem foldl_log (f : List Nat → Nat → List Char) (l : List Nat) (s : State) :
    l.foldl (fun s i => s.log (Event.printf (f s.values i))) s
      = { s with trace := s.trace ++ l.map (fun i => Event.printf (f s.values i)) } := by
  induction l generalizing s with
  | nil => simp
  | cons i rest ih =>
    simp only [List.foldl_cons]
    rw [ih]
    simp [State.log]

theorem console_map_printf (f : Nat → List Char) (g : Nat → Char) (l : List Nat)
    (h : ∀ i, i ∈ l → f i = [g i]) :
    console (l.map (fun i => Event.printf (f i))) = l.map g := by
  induction l with
  | nil => rfl
  | cons i rest ih =>
    simp only [List.map_cons, console]
    rw [h i (List.mem_cons_self _ _), ih (fun j hj => h j (List.mem_cons_of_mem _ hj))]
    rfl

theorem fmt_d_digit : ∀ n, n < 10 → fmt_d n = [Nat.digitChar n] := by decide

theorem fmt_x_digit : ∀ n, n < 16 → fmt_x n = [Nat.digitChar n] := by decide

theorem printHeader_eq (s : State) : console (printHeader s).trace
      = console s.trace ++ (List.range 126).map (fun i => Nat.digitChar (i / 100)) ++ ['\n']
        ++ (List.range 126).map (fun i => Nat.digitChar (i % 100 / 10)) ++ ['\n']
        ++ (List.range 126).map (fun i => Nat.digitChar (i % 10)) ++ ['\n']
        ++ List.replicate 126 '~' ++ ['\n'] := by
  have e1 := console_map_printf (fun i => fmt_d (i / 100)) (fun i => Nat.digitChar (i / 100))
    (List.range 126) (fun i hi => fmt_d_digit _ (by have := List.mem_range.1 hi; omega))
  have e2 := console_map_printf (fun i => fmt_d (i % 100 / 10))
    (fun i => Nat.digitChar (i % 100 / 10))
    (List.range 126) (fun i hi => fmt_d_digit _ (by omega))
  have e3 := console_map_printf (fun i => fmt_d (i % 10)) (fun i => Nat.digitChar (i % 10))
    (List.range 126) (fun i hi => fmt_d_digit _ (by omega))
  have e4 := console_map_printf (fun _ => "~".toList) (fun _ => '~')
    (List.range 126) (fun i hi => rfl)
  have f1 := foldl_log (fun _ i => fmt_d (i / 100))
  have f2 := foldl_log (fun _ i => fmt_d (i % 100 / 10))
  have f3 := foldl_log (fun _ i => fmt_d (i % 10))
  have f4 := foldl_log (fun _ _ => "~".toList)
  simp only at f1 f2 f3 f4 e1 e2 e3 e4
  simp only [printHeader, f1, f2, f3, f4, num_channels]
  simp only [State.log, console_append, e1, e2, e3, e4]
  have c1 : console [Event.printf "\n".toList] = ['\n'] := rfl
  have c2 : List.map (fun _ : Nat => '~') (List.range 126) = List.replicate 126 '~' := by
    rw [List.map_const', List.length_range]
  rw [c1, c2]

theorem rf24_min_eq (a b : Nat) : rf24_min a b = min a b := by
  unfold rf24_min
  split <;> omega

theorem main_printRow_eq (s : State) : console (main_printRow s).trace
      = console s.trace
        ++ (List.range 126).map (fun i =>
            if s.values.getD i 0 = 0 then '-' else Nat.digitChar (min 15 (s.values.getD i 0)))
        ++ ['\r', '\n'] ++ ['\n'] := by
  have hbody : (fun (s : State) (i : Nat) =>
      if s.values.getD i 0 ≠ 0 then
        s.log (Event.printf (fmt_x (rf24_min 0xf (s.values.getD i 0))))
      else s.log (Event.printf "-".toList))
      = fun s i => s.log (Event.printf
          (if s.values.getD i 0 ≠ 0 then fmt_x (rf24_min 0xf (s.values.getD i 0))
            else "-".toList)) := by
    funext s i
    split_ifs <;> rfl
  have f1 := foldl_log (fun vals i =>
    if vals.getD i 0 ≠ 0 then fmt_x (rf24_min 0xf (vals.getD i 0)) else "-".toList)
  have e := console_map_printf
    (fun i => if s.values.getD i 0 ≠ 0 then fmt_x (rf24_min 0xf (s.values.getD i 0))
      else "-".toList)
    (fun i => if s.values.getD i 0 = 0 then '-'
      else Nat.digitChar (min 15 (s.values.getD i 0)))
    (List.range 126)
    (fun i _ => by
      by_cases h : s.values.getD i 0 = 0
      · simp only [h, ne_eq, not_true_eq_false, if_false, if_true]
        rfl
      · simp only [h, ne_eq, not_false_eq_true, if_true, if_false, rf24_min_eq]
        exact fmt_x_digit _ (by omega))
  simp only at e f1
  simp only [main_printRow]
  rw [hbody, f1]
  simp only [State.log, num_channels, console_append, e]
  rfl

/-- **C5.** The per-sweep row printed by `main` is exactly 126 characters followed by a line
break (`"\r\n"`, then the blank line `"\n"`); character `i` is the placeholder `'-'` when
`values[i] = 0` and otherwise the single lowercase hexadecimal digit of `min(15, values[i])`.
So a count of exactly 5 renders as `'5'`, every count of 16 or more renders as `'f'`, and an
all-zero array renders as 126 `'-'` characters. -/
theorem C5_main_printRow (s : State) :
    ∃ row : List Char,
      console (main_printRow s).trace = console s.trace ++ row ++ ['\r', '\n'] ++ ['\n'] ∧
      row.length = 126 ∧
      (∀ i, i < 126 → row[i]? = some
        (if s.values.getD i 0 = 0 then '-' else Nat.digitChar (min 15 (s.values.getD i 0)))) ∧
      (∀ i, i < 126 → s.values.getD i 0 = 5 → row[i]? = some '5') ∧
      (∀ i, i < 126 → 16 ≤ s.values.getD i 0 → row[i]? = some 'f') ∧
      ((∀ i, i < 126 → s.values.getD i 0 = 0) → row = List.replicate 126 '-') := by
  have hrow : ∀ i, i < 126 →
      ((List.range 126).map (fun i =>
        if s.values.getD i 0 = 0 then '-' else Nat.digitChar (min 15 (s.values.getD i 0))))[i]?
      = some (if s.values.getD i 0 = 0 then '-'
          else Nat.digitChar (min 15 (s.values.getD i 0))) := by
    intro i hi
    rw [List.getElem?_map, List.getElem?_range hi]
    rfl
  refine ⟨_, main_printRow_eq s, by simp, hrow, ?_, ?_, ?_⟩
  · intro i hi h5
    rw [hrow i hi, h5]
    rfl
  · intro i hi h16
    have h0 : s.values.getD i 0 ≠ 0 := by omega
    have hm : min 15 (s.values.getD i 0) = 15 := by omega
    rw [hrow i hi, if_neg h0, hm]
    rfl
  · intro hz
    rw [List.eq_replicate_iff]
    refine ⟨by simp, ?_⟩
    intro b hb
    obtain ⟨i, hi, rfl⟩ := List.mem_map.1 hb
    rw [if_pos (hz i (List.mem_range.1 hi))]

theorem C5_main_printRow_witness :
    ∃ row : List Char,
      console (main_printRow programStart).trace
        = console programStart.trace ++ row ++ ['\r', '\n'] ++ ['\n'] ∧
      row = List.replicate 126 '-' := by
  obtain ⟨row, h1, -, -, -, -, h6⟩ := C5_main_printRow programStart
  refine ⟨row, h1, h6 ?_⟩
  intro i _
  show (List.replicate 126 0).getD i 0 = 0
  rw [List.getD_eq_getElem?_getD, List.getElem?_replicate]
  split <;> rfl

/-- **C6.** `printHeader` emits three digit rows of exactly 126 characters each, then a divider
row of exactly 126 `'~'` characters, each row ended by a line break; for every column `i` in
0..125 the characters at column `i` of the three rows are decimal digits `h`, `t`, `u` with
`100*h + 10*t + u = i`.  Column 0 reads 0,0,0 and column 19 reads 0,1,9. -/
theorem C6_printHeader_columns (s : State) :
    ∃ r1 r2 r3 : List Char,
      console (printHeader s).trace
        = console s.trace ++ r1 ++ ['\n'] ++ r2 ++ ['\n'] ++ r3 ++ ['\n']
          ++ List.replicate 126 '~' ++ ['\n'] ∧
      r1.length = 126 ∧ r2.length = 126 ∧ r3.length = 126 ∧
      (∀ i, i < 126 → ∃ h t u : Nat, h < 10 ∧ t < 10 ∧ u < 10 ∧
        r1[i]? = some (Nat.digitChar h) ∧ r2[i]? = some (Nat.digitChar t) ∧
        r3[i]? = some (Nat.digitChar u) ∧ 100 * h + 10 * t + u = i) ∧
      (r1[0]? = some '0' ∧ r2[0]? = some '0' ∧ r3[0]? = some '0') ∧
      (r1[19]? = some '0' ∧ r2[19]? = some '1' ∧ r3[19]? = some '9') := by
  refine ⟨_, _, _, printHeader_eq s, by simp, by simp, by simp, ?_, ?_, ?_⟩
  · intro i hi
    refine ⟨i / 100, i % 100 / 10, i % 10, by omega, by omega, by omega, ?_, ?_, ?_, by omega⟩
    · simp [hi]
    · simp [hi]
    · simp [hi]
  · refine ⟨?_, ?_, ?_⟩ <;> simp <;> rfl
  · refine ⟨?_, ?_, ?_⟩ <;> simp <;> rfl

theorem C6_printHeader_columns_witness :
    ∃ r1 r2 r3 : List Char,
      console (printHeader programStart).trace
        = console programStart.trace ++ r1 ++ ['\n'] ++ r2 ++ ['\n'] ++ r3 ++ ['\n']
          ++ List.replicate 126 '~' ++ ['\n'] ∧
      (r1[19]? = some '0' ∧ r2[19]? = some '1' ∧ r3[19]? = some '9') := by
  obtain ⟨r1, r2, r3, h1, -, -, -, -, -, h19⟩ := C6_printHeader_columns programStart
  exact ⟨r1, r2, r3, h1, h19⟩

end Scanner
